import Mathlib

/-!
# Verification of the Argus "Bot Minions" scheduler subsystem

Shallow embedding of the bot-minions engine of the Argus repository:
the shared `RateLimiter` (spacing, exponential backoff, flood-wait
handling), the `MinionEngine` poll cycle and scheduler, the
keyword-monitor poll strategy, the `AlertService` bookkeeping and the
IndexedDB-backed storage cascade.  All definitions are translated from
the TypeScript sources under `src/plugins/bot-minions/`; times and
millisecond quantities are modelled as rationals (JS numbers on the
values occurring here), opaque string identifiers are kept as `String`
except log ids, which are modelled as naturals.
-/

namespace Argus

/-! ## Rate limiter: sequential state
    From `helpers/rateLimiter.ts`.  The fields of `RateLimiter` that are
    plain numbers; the wait queue and in-flight count are modelled
    separately as an interleaving transition system below. -/

/-- Source `RateLimiterConfig` from `types/index.ts`. -/
structure RateLimiterConfig where
  minDelayMs : ℚ
  maxDelayMs : ℚ
  maxConcurrent : ℕ
  backoffMultiplier : ℚ
  maxBackoffMs : ℚ
deriving DecidableEq, Repr

/-- Source `DEFAULT_CONFIG` in `rateLimiter.ts`. -/
def DEFAULT_CONFIG : RateLimiterConfig :=
  { minDelayMs := 2000
    maxDelayMs := 5000
    maxConcurrent := 1
    backoffMultiplier := 2
    maxBackoffMs := 300000 }

/-- The numeric state of a `RateLimiter` instance (fields `lastCallTime`,
    `currentBackoff`, `floodWaitUntil` of the class). -/
structure RL where
  config : RateLimiterConfig
  lastCallTime : ℚ
  currentBackoff : ℚ
  floodWaitUntil : ℚ
deriving DecidableEq, Repr

namespace RL

/-- A freshly constructed `RateLimiter` (constructor field initializers). -/
def init (cfg : RateLimiterConfig) : RL :=
  { config := cfg, lastCallTime := 0, currentBackoff := 0, floodWaitUntil := 0 }

/-- Source `getJitteredDelay()`: `min(minDelayMs + currentBackoff + jitter, maxBackoffMs)`
    where `jitter = Math.random() * (maxDelayMs - minDelayMs)`; the random draw
    `r ∈ [0,1)` is passed explicitly. -/
def getJitteredDelay (rl : RL) (r : ℚ) : ℚ :=
  min (rl.config.minDelayMs + rl.currentBackoff + r * (rl.config.maxDelayMs - rl.config.minDelayMs))
    rl.config.maxBackoffMs

/-- Source `reportSuccess()`: backoff decays by 500, floored at 0. -/
def reportSuccess (rl : RL) : RL :=
  { rl with currentBackoff := max 0 (rl.currentBackoff - 500) }

/-- Source `reportError()`: backoff is multiplied (from at least `minDelayMs`),
    capped at `maxBackoffMs`. -/
def reportError (rl : RL) : RL :=
  let newBackoff :=
    min ((max rl.currentBackoff rl.config.minDelayMs) * rl.config.backoffMultiplier)
      rl.config.maxBackoffMs
  { rl with currentBackoff := newBackoff }

/-- Source `reportFloodWait(waitSeconds)` invoked at time `now`:
    `waitMs = (waitSeconds + 5) * 1000` (5 s safety margin),
    `floodWaitUntil = now + waitMs`,
    `currentBackoff = min(currentBackoff * backoffMultiplier + waitMs, maxBackoffMs)`. -/
def reportFloodWait (rl : RL) (now waitSeconds : ℚ) : RL :=
  let waitMs := (waitSeconds + 5) * 1000
  let newBackoff := min (rl.currentBackoff * rl.config.backoffMultiplier + waitMs) rl.config.maxBackoffMs
  { rl with floodWaitUntil := now + waitMs, currentBackoff := newBackoff }

/-- Total artificial delay of one un-queued `acquire()` call entered at time
    `t` with jitter draw `r`: first the flood-wait sleep
    (`floodWaitUntil - now` if the deadline is in the future), then the
    inter-call spacing sleep (`requiredDelay - elapsed` if the elapsed time
    since `lastCallTime` is still short of `getJitteredDelay()`). -/
def acquireBlockTime (rl : RL) (t r : ℚ) : ℚ :=
  let floodSleep := if rl.floodWaitUntil > t then rl.floodWaitUntil - t else 0
  let elapsed := (t + floodSleep) - rl.lastCallTime
  let required := rl.getJitteredDelay r
  let spacingSleep := if elapsed < required then required - elapsed else 0
  floodSleep + spacingSleep

end RL

/-! ## Rate limiter: concurrency model of `acquire()` / `release()`
    `acquire()` in `rateLimiter.ts` is an async method; between its
    concurrency check (`activeCount >= maxConcurrent`) and the increment
    `activeCount++` it can suspend (flood-wait sleep, queue wait, spacing
    sleep), so other callers interleave.  We model each caller ("task") by
    the control point it has reached and the limiter by `activeCount` and
    the FIFO resolver queue, with an arbitrary interleaving of atomic
    steps.  `activeCount` is an integer updated exactly as in the source
    (`activeCount++`; `Math.max(0, activeCount - 1)`). -/

/-- Control point of one caller inside `acquire()`/`release()`. -/
inductive Phase where
  /-- has not called `acquire()` yet -/
  | notStarted
  /-- inside `acquire()`, at the `activeCount >= maxConcurrent` check -/
  | checking
  /-- pushed onto the resolver queue, awaiting a `release()` signal -/
  | queued
  /-- past the check (or woken by `release()`), in the spacing-sleep region
      before `activeCount++` -/
  | sleeping
  /-- has executed `activeCount++`; `acquire()` returned -/
  | holding
  /-- has called `release()` -/
  | finished
deriving DecidableEq, Repr

/-- Limiter state shared by all callers: `maxConcurrent`, `activeCount`,
    the FIFO wait `queue` (task indices), and each task's control point. -/
structure ConcState where
  maxConcurrent : ℕ
  active : ℤ
  queue : List ℕ
  phases : List Phase
deriving DecidableEq, Repr

/-- Initial limiter state with `n` callers that have not called `acquire()`. -/
def ConcState.mk0 (k n : ℕ) : ConcState :=
  { maxConcurrent := k, active := 0, queue := [], phases := List.replicate n Phase.notStarted }

/-- One interleaving event: which caller advances, or a bare `release()`
    call not paired with a completed `acquire()`. -/
inductive Ev where
  /-- task `i` enters `acquire()` (past the flood-wait region, at the check) -/
  | call (i : ℕ)
  /-- task `i` finds `activeCount >= maxConcurrent` and enqueues itself -/
  | enqueue (i : ℕ)
  /-- task `i` finds `activeCount < maxConcurrent` and proceeds to the
      spacing-sleep region -/
  | pass (i : ℕ)
  /-- task `i` wakes from the spacing sleep and executes `activeCount++` -/
  | finish (i : ℕ)
  /-- task `i` calls `release()` after holding -/
  | release (i : ℕ)
  /-- an extra `release()` call with no matching `acquire()` -/
  | releaseExtra
deriving DecidableEq, Repr

/-- The body of `release()`: `activeCount = Math.max(0, activeCount - 1)`;
    then the head of the queue, if any, is resolved — the woken caller
    resumes inside `acquire()` in the spacing-sleep region. -/
def releaseBody (s : ConcState) : ConcState :=
  let s' := { s with active := max 0 (s.active - 1) }
  match s'.queue with
  | [] => s'
  | j :: rest => { s' with queue := rest, phases := s'.phases.set j Phase.sleeping }

/-- Guarded small-step semantics of one event; `none` if the event is not
    enabled in `s`. -/
def step (s : ConcState) (e : Ev) : Option ConcState :=
  match e with
  | .call i =>
      if s.phases.getD i Phase.finished = Phase.notStarted then
        some { s with phases := s.phases.set i Phase.checking }
      else none
  | .enqueue i =>
      if s.phases.getD i Phase.finished = Phase.checking ∧ s.active ≥ s.maxConcurrent then
        some { s with phases := s.phases.set i Phase.queued, queue := s.queue ++ [i] }
      else none
  | .pass i =>
      if s.phases.getD i Phase.finished = Phase.checking ∧ s.active < s.maxConcurrent then
        some { s with phases := s.phases.set i Phase.sleeping }
      else none
  | .finish i =>
      if s.phases.getD i Phase.finished = Phase.sleeping then
        some { s with phases := s.phases.set i Phase.holding, active := s.active + 1 }
      else none
  | .release i =>
      if s.phases.getD i Phase.finished = Phase.holding then
        some (releaseBody { s with phases := s.phases.set i Phase.finished })
      else none
  | .releaseExtra => some (releaseBody s)

/-- Run a whole interleaving (event list) from `s`; `none` if some event is
    not enabled at its point. -/
def run (s : ConcState) : List Ev → Option ConcState
  | [] => some s
  | e :: es => match step s e with
    | some s' => run s' es
    | none => none

/-- Source `getStatus().activeCount` for the concurrency model. -/
def ConcState.statusActiveCount (s : ConcState) : ℤ := s.active

/-! ## Minion engine
    From `services/minionEngine.ts` and `types/index.ts`.  `startedAt` /
    `uptimeMs` / `alertsTriggered` / `lastKnownMembers` are frame fields
    untouched by the claims and are omitted from the state record. -/

/-- Source `MinionStatus` (the transient `'starting'` label included). -/
inductive MinionStatus where
  | running
  | paused
  | stopped
  | error
  | starting
deriving DecidableEq, Repr

/-- The fields of `MinionConfig` the engine logic reads. -/
structure MinionConfig where
  id : String
  enabled : Bool
  targetChatIds : List String
  pollIntervalMs : ℚ
deriving DecidableEq, Repr

/-- The fields of `MinionState` the poll cycle reads and writes.
    `lastMessageIds` (per-chat cursor) is an association list. -/
structure MinionState where
  id : String
  status : MinionStatus
  lastPollAt : ℚ
  nextPollAt : ℚ
  messagesScanned : ℕ
  errorsCount : ℕ
  lastError : Option String
  lastMessageIds : List (String × ℕ)
deriving DecidableEq, Repr

/-- A `Partial<MinionState>` as produced by a strategy or passed to
    `updateState`: present keys override, absent keys leave the stored
    value. -/
structure PartialMinionState where
  status : Option MinionStatus := none
  lastPollAt : Option ℚ := none
  nextPollAt : Option ℚ := none
  messagesScanned : Option ℕ := none
  errorsCount : Option ℕ := none
  lastError : Option (Option String) := none
  lastMessageIds : Option (List (String × ℕ)) := none
deriving DecidableEq, Repr

/-- Source `MinionEngine.updateState`: the object spread `{ ...current, ...updates }`
    (uptime recomputation omitted with the `uptimeMs` field). -/
def updateState (current : MinionState) (u : PartialMinionState) : MinionState :=
  { id := current.id
    status := u.status.getD current.status
    lastPollAt := u.lastPollAt.getD current.lastPollAt
    nextPollAt := u.nextPollAt.getD current.nextPollAt
    messagesScanned := u.messagesScanned.getD current.messagesScanned
    errorsCount := u.errorsCount.getD current.errorsCount
    lastError := u.lastError.getD current.lastError
    lastMessageIds := u.lastMessageIds.getD current.lastMessageIds }

/-- Source `MinionEngine.schedulePoll`: guarded on a present config/state with
    status `'running'`; arms a timer for
    `max(config.pollIntervalMs, 30000) + Math.random() * 5000` ms and sets
    `nextPollAt = Date.now() + interval + jitter`.  The random draw
    `r ∈ [0,1)` and `now` are explicit; the result is the armed delay and
    the updated state, or `none` when the guard fails. -/
def schedulePoll (cfg : MinionConfig) (st : MinionState) (now r : ℚ) : Option (ℚ × MinionState) :=
  if st.status = MinionStatus.running then
    let interval := max cfg.pollIntervalMs 30000
    let jitter := r * 5000
    some (interval + jitter, updateState st { nextPollAt := some (now + interval + jitter) })
  else none

/-- Outcome of one strategy invocation through `rateLimiter.execute`:
    resolved with a partial state, rejected with a generic error, or
    rejected with a Telegram flood-wait error (an object with a `seconds`
    field). -/
inductive PollOutcome where
  | ok (u : PartialMinionState)
  | err (msg : String)
  | flood (seconds : ℚ) (msg : String)
deriving DecidableEq, Repr

/-- Result of `executePoll` on one minion: the stored state, the shared
    rate-limiter state, and whether `schedulePoll` was invoked again. -/
structure PollCycle where
  state : MinionState
  rl : RL
  scheduledNext : Bool
deriving DecidableEq, Repr

/-- Source `MinionEngine.executePoll` for minion state `st` at time `now`, with
    the strategy outcome given by `outcome`:
    * guard: no-op unless `status === 'running'`;
    * `rateLimiter.execute` reports success / flood-wait / generic error
      to the shared limiter and rethrows failures;
    * on success the partial update is stored via the spread
      `{ ...stateUpdates, lastPollAt: Date.now(), errorsCount: state.errorsCount }`;
    * on failure `lastError`, `errorsCount + 1` and `lastPollAt` are
      stored, and if the stored `errorsCount` has reached 10 the minion is
      paused (`pauseMinion`) and no further poll is scheduled;
    * otherwise the next poll is scheduled iff the state is still
      `'running'`. -/
def executePoll (st : MinionState) (rl : RL) (outcome : PollOutcome) (now : ℚ) : PollCycle :=
  if st.status ≠ MinionStatus.running then ⟨st, rl, false⟩ else
  match outcome with
  | .ok u =>
      let rl' := rl.reportSuccess
      let st' := updateState st
        { u with lastPollAt := some now, errorsCount := some st.errorsCount }
      ⟨st', rl', st'.status = MinionStatus.running⟩
  | .err msg =>
      let rl' := rl.reportError
      let st' := updateState st
        { lastError := some (some msg), errorsCount := some (st.errorsCount + 1),
          lastPollAt := some now }
      if st'.errorsCount ≥ 10 then
        ⟨updateState st' { status := some MinionStatus.paused }, rl', false⟩
      else
        ⟨st', rl', st'.status = MinionStatus.running⟩
  | .flood seconds msg =>
      let rl' := rl.reportFloodWait now seconds
      let st' := updateState st
        { lastError := some (some msg), errorsCount := some (st.errorsCount + 1),
          lastPollAt := some now }
      if st'.errorsCount ≥ 10 then
        ⟨updateState st' { status := some MinionStatus.paused }, rl', false⟩
      else
        ⟨st', rl', st'.status = MinionStatus.running⟩

/-! ## Keyword monitor strategy
    From `services/keywordMonitor.ts` and `helpers/utils.ts`.  Regex
    patterns (`matchesRegexPatterns`, a JS `RegExp` feature) are outside
    the embedding; the model covers configurations with
    `regexPatterns = []`, for which the match condition is exactly
    `matchesKeywords(...).length > 0`.  The upstream bridge
    `fetchChatMessages(chatId, 50, offsetId?)` is an external collaborator
    passed in as the function `fetch`; alerts are abstracted to the
    identifying fields the strategy puts in them. -/

/-- The fields of a `BridgeMessage` the keyword monitor reads. -/
structure BridgeMessage where
  id : ℕ
  text : String
deriving DecidableEq, Repr

/-- A keyword-match alert as emitted by `pollKeywordMonitor`
    (identifying fields only). -/
structure KMAlert where
  chatId : String
  messageId : ℕ
  matchedKeywords : List String
deriving DecidableEq, Repr

/-- Source `lowerText.includes(pat)`: `pat` occurs as a contiguous substring of
    `text` (on the underlying character lists). -/
def containsSub (text pat : List Char) : Bool :=
  match text with
  | [] => pat.isEmpty
  | _ :: rest => pat.isPrefixOf text || containsSub rest pat

/-- Source `text.toLowerCase()` on the underlying character list. -/
def lowerData (s : String) : List Char := s.data.map Char.toLower

/-- Source `matchesKeywords(text, keywords)` from `helpers/utils.ts`:
    the keywords whose lowercase form occurs in the lowercase text. -/
def matchesKeywords (text : String) (keywords : List String) : List String :=
  keywords.filter (fun kw => containsSub (lowerData text) (lowerData kw))

/-- Object-key assignment `updatedLastMessageIds[chatId] = maxId` on the
    association-list cursor. -/
def setCursor (l : List (String × ℕ)) (chatId : String) (v : ℕ) : List (String × ℕ) :=
  if l.any (fun p => p.1 = chatId) then
    l.map (fun p => if p.1 = chatId then (chatId, v) else p)
  else l ++ [(chatId, v)]

/-- Running accumulator of the `for (const chatId of config.targetChatIds)`
    loop in `pollKeywordMonitor`. -/
structure KMAcc where
  totalScanned : ℕ
  updatedLastMessageIds : List (String × ℕ)
  alerts : List KMAlert
deriving DecidableEq, Repr

/-- One iteration of the target loop of `pollKeywordMonitor`:
    read the cursor (`state.lastMessageIds[chatId] || 0`), fetch, keep only
    messages with `id > lastSeenId` when a cursor exists (first run keeps
    everything), bump the cursor to the max fetched id, and emit an alert
    for every kept message with non-empty text and a keyword match. -/
def kmProcessChat (keywords : List String) (st : MinionState)
    (fetch : String → Option ℕ → List BridgeMessage) (acc : KMAcc) (chatId : String) : KMAcc :=
  let lastSeen := (st.lastMessageIds.lookup chatId).getD 0
  let messages := fetch chatId (if lastSeen > 0 then some lastSeen else none)
  if messages = [] then acc else
  let newMessages := if lastSeen > 0 then messages.filter (fun m => lastSeen < m.id) else messages
  if newMessages = [] then acc else
  let maxId := (newMessages.map (fun m => m.id)).foldl max 0
  let newAlerts := (newMessages.filter
      (fun m => (m.text != "") && (matchesKeywords m.text keywords != []))).map
      (fun m => KMAlert.mk chatId m.id (matchesKeywords m.text keywords))
  { totalScanned := acc.totalScanned + newMessages.length
    updatedLastMessageIds := setCursor acc.updatedLastMessageIds chatId maxId
    alerts := acc.alerts ++ newAlerts }

/-- Source `pollKeywordMonitor(config, state, engine)` for a keyword-only
    configuration: returns the partial state update
    `{ messagesScanned, lastMessageIds }` and the alerts emitted through
    `engine.emitAlert` during the poll, in order. -/
def pollKeywordMonitor (cfg : MinionConfig) (keywords : List String) (st : MinionState)
    (fetch : String → Option ℕ → List BridgeMessage) : PartialMinionState × List KMAlert :=
  let acc := cfg.targetChatIds.foldl (kmProcessChat keywords st fetch)
    { totalScanned := 0, updatedLastMessageIds := st.lastMessageIds, alerts := [] }
  ({ messagesScanned := some (st.messagesScanned + acc.totalScanned),
     lastMessageIds := some acc.updatedLastMessageIds }, acc.alerts)

/-! ## Alert storage and alert service
    From `helpers/minionStorage.ts` (the `minion-alerts` IndexedDB object
    store, keyed on `id`) and `services/alertService.ts`.  An object store
    keyed on `id` is modelled as a list of records where `put` replaces
    the records carrying the same key. -/

/-- The fields of a `MinionAlert` the bookkeeping reads and writes. -/
structure Alert where
  id : String
  minionId : String
  timestamp : ℚ
  read : Bool
  dismissed : Bool
deriving DecidableEq, Repr

/-- Source `store.put(alert)` on the alerts object store: replace the record at
    key `alert.id`, or insert it if absent. -/
def saveAlert (a : Alert) (alerts : List Alert) : List Alert :=
  if alerts.any (fun b => b.id = a.id) then
    alerts.map (fun b => if b.id = a.id then a else b)
  else alerts ++ [a]

/-- Source `getAlert(id)`: `store.get(id)`. -/
def getAlert (id : String) (alerts : List Alert) : Option Alert :=
  alerts.find? (fun a => a.id = id)

/-- Source `markAlertRead(id)` in `minionStorage.ts`: load, set `read = true`,
    save; no-op when the alert does not exist. -/
def markAlertRead (id : String) (alerts : List Alert) : List Alert :=
  match getAlert id alerts with
  | none => alerts
  | some a => saveAlert { a with read := true } alerts

/-- Source `markAlertDismissed(id)` in `minionStorage.ts`. -/
def markAlertDismissed (id : String) (alerts : List Alert) : List Alert :=
  match getAlert id alerts with
  | none => alerts
  | some a => saveAlert { a with dismissed := true } alerts

/-- Source `markAllAlertsRead()` in `minionStorage.ts`: put every unread alert
    back with `read = true`. -/
def markAllAlertsRead (alerts : List Alert) : List Alert :=
  alerts.map (fun a => if !a.read then { a with read := true } else a)

/-- The observable state of the `AlertService` singleton: the persisted
    alerts store and the in-memory `unreadCount`. -/
structure AlertServiceState where
  alerts : List Alert
  unreadCount : ℕ
deriving DecidableEq, Repr

namespace AlertService

/-- Source `AlertService.markRead(alertId)`: persist the flag, then
    `unreadCount = Math.max(0, unreadCount - 1)` — unconditionally — and
    notify the count listeners with the new absolute count.  The returned
    list holds the counts delivered to `onUnreadCountChange` listeners. -/
def markRead (s : AlertServiceState) (alertId : String) : AlertServiceState × List ℕ :=
  let s' : AlertServiceState :=
    { alerts := markAlertRead alertId s.alerts, unreadCount := s.unreadCount - 1 }
  (s', [s'.unreadCount])

/-- Source `AlertService.markDismissed(alertId)`: persist the flag; the unread
    count is untouched and no count notification is sent. -/
def markDismissed (s : AlertServiceState) (alertId : String) : AlertServiceState × List ℕ :=
  ({ alerts := markAlertDismissed alertId s.alerts, unreadCount := s.unreadCount }, [])

/-- Source `AlertService.markAllRead()`: persist all flags, zero the count, and
    notify listeners with the new absolute count. -/
def markAllRead (s : AlertServiceState) : AlertServiceState × List ℕ :=
  ({ alerts := markAllAlertsRead s.alerts, unreadCount := 0 }, [0])

end AlertService

/-! ## Full storage and the deletion cascade
    From `helpers/minionStorage.ts` (`deleteConfig`, `deleteState`,
    `clearAlertsByMinion`, `clearLogsByMinion`, `getLogsByMinion`,
    `deleteAllMinionData`) and `MinionEngine.deleteMinion`.  Log ids
    (`generateLogId()`, opaque unique strings) are modelled as naturals. -/

/-- The fields of a `MinionLogEntry` the storage logic reads. -/
structure LogEntry where
  id : ℕ
  minionId : String
  timestamp : ℚ
deriving DecidableEq, Repr

/-- Stable insertion of `x` into a list sorted by descending timestamp,
    after all entries with a timestamp ≥ `x.timestamp`. -/
def insertTsDesc (l : List LogEntry) (x : LogEntry) : List LogEntry :=
  match l with
  | [] => [x]
  | y :: ys => if y.timestamp < x.timestamp then x :: y :: ys else y :: insertTsDesc ys x

/-- Source `logs.sort((a, b) => b.timestamp - a.timestamp)`: a stable sort by
    descending timestamp (insertion sort). -/
def sortTsDesc (l : List LogEntry) : List LogEntry :=
  l.foldl insertTsDesc []

/-- Source `getLogsByMinion(minionId, limit)`: the minion's log entries, newest
    first, truncated to `limit`. -/
def getLogsByMinion (minionId : String) (limit : ℕ) (logs : List LogEntry) : List LogEntry :=
  (sortTsDesc (logs.filter (fun log => log.minionId = minionId))).take limit

/-- The four IndexedDB record families (each object store keyed on `id`). -/
structure MinionStorage where
  configs : List MinionConfig
  states : List MinionState
  alerts : List Alert
  logs : List LogEntry
deriving DecidableEq, Repr

/-- Source `getConfig(id)`. -/
def getConfig (id : String) (s : MinionStorage) : Option MinionConfig :=
  s.configs.find? (fun c => c.id = id)

/-- Source `getState(id)`. -/
def getStateRec (id : String) (s : MinionStorage) : Option MinionState :=
  s.states.find? (fun st => st.id = id)

/-- Source `getAlertsByMinion(minionId)`: the `minionId` index query. -/
def getAlertsByMinion (minionId : String) (s : MinionStorage) : List Alert :=
  s.alerts.filter (fun a => a.minionId = minionId)

/-- Source `deleteConfig(id)`: `store.delete(id)` removes the record at key `id`. -/
def deleteConfig (id : String) (s : MinionStorage) : MinionStorage :=
  { s with configs := s.configs.filter (fun c => c.id ≠ id) }

/-- Source `deleteState(id)`. -/
def deleteStateRec (id : String) (s : MinionStorage) : MinionStorage :=
  { s with states := s.states.filter (fun st => st.id ≠ id) }

/-- Source `clearAlertsByMinion(minionId)`: fetch the minion's alerts, then delete
    each fetched record by its `id`. -/
def clearAlertsByMinion (minionId : String) (s : MinionStorage) : MinionStorage :=
  let toDelete := (getAlertsByMinion minionId s).map (fun a => a.id)
  { s with alerts := s.alerts.filter (fun a => ¬ a.id ∈ toDelete) }

/-- Source `clearLogsByMinion(minionId)`: fetch `getLogsByMinion(minionId, 10000)`,
    then delete each fetched record by its `id`. -/
def clearLogsByMinion (minionId : String) (s : MinionStorage) : MinionStorage :=
  let toDelete := (getLogsByMinion minionId 10000 s.logs).map (fun log => log.id)
  { s with logs := s.logs.filter (fun log => ¬ log.id ∈ toDelete) }

/-- Source `deleteAllMinionData(minionId)`: the four-family cascade. -/
def deleteAllMinionData (minionId : String) (s : MinionStorage) : MinionStorage :=
  clearLogsByMinion minionId (clearAlertsByMinion minionId (deleteStateRec minionId (deleteConfig minionId s)))

/-- Source `saveLog(entry)`: `store.put(entry)` on the logs object store,
    keyed on `id` — replace the records at that key, or append if absent. -/
def saveLog (entry : LogEntry) (logs : List LogEntry) : List LogEntry :=
  if logs.any (fun l => l.id = entry.id) then
    logs.map (fun l => if l.id = entry.id then entry else l)
  else logs ++ [entry]

/-- The in-memory maps of `MinionEngine` (`configs`, `states`) together
    with the persistent storage. -/
structure Engine where
  configs : List MinionConfig
  states : List MinionState
  storage : MinionStorage
deriving DecidableEq, Repr

namespace Engine

/-- In-memory `this.states` update of one minion (`Map.set` after
    `updateState`). -/
def setMinionState (e : Engine) (id : String) (u : PartialMinionState) : Engine :=
  { e with states := e.states.map (fun st => if st.id = id then updateState st u else st) }

/-- Source `persistState(id)`: save the in-memory state record into storage
    (a `put`, i.e. replace-at-key-or-append). -/
def persistState (e : Engine) (id : String) : Engine :=
  match e.states.find? (fun st => st.id = id) with
  | none => e
  | some st =>
      let stored :=
        if e.storage.states.any (fun t => t.id = id) then
          e.storage.states.map (fun t => if t.id = id then st else t)
        else e.storage.states ++ [st]
      { e with storage := { e.storage with states := stored } }

/-- Source `MinionEngine.log(minionId, level, message)` restricted to its
    storage effect: build the entry (its `generateLogId()` result and
    `Date.now()` timestamp passed explicitly; level and message do not
    affect the record families modelled here) and `saveLog` it. -/
def logWrite (e : Engine) (minionId : String) (logId : ℕ) (now : ℚ) : Engine :=
  { e with storage :=
      { e.storage with logs := saveLog (LogEntry.mk logId minionId now) e.storage.logs } }

/-- Source `stopMinion(id)`: clear the timer (timers are not part of this
    model), set status `'stopped'`, persist, then write the
    `'Minion stopped'` info log entry for that minion. -/
def stopMinion (e : Engine) (id : String) (logId : ℕ) (now : ℚ) : Engine :=
  logWrite (persistState (setMinionState e id { status := some MinionStatus.stopped }) id)
    id logId now

/-- Source `deleteMinion(id)`: implicit stop (which also writes the stop
    log entry), storage cascade, then removal from the in-memory maps. -/
def deleteMinion (e : Engine) (id : String) (logId : ℕ) (now : ℚ) : Engine :=
  let e1 := stopMinion e id logId now
  { configs := e1.configs.filter (fun c => c.id ≠ id)
    states := e1.states.filter (fun st => st.id ≠ id)
    storage := deleteAllMinionData id e1.storage }

end Engine

/-! ## Shared concrete example data -/

/-- A concrete keyword-monitor config with one target. -/
def cfgEx : MinionConfig :=
  { id := "m1", enabled := true, targetChatIds := ["c"], pollIntervalMs := 60000 }

/-- A concrete freshly started minion state. -/
def stEx : MinionState :=
  { id := "m1", status := MinionStatus.running, lastPollAt := 0, nextPollAt := 0,
    messagesScanned := 0, errorsCount := 0, lastError := none, lastMessageIds := [] }

/-- A fresh rate limiter over `DEFAULT_CONFIG`. -/
def rl0 : RL := RL.init DEFAULT_CONFIG

/-! ## Invariant lemmas for the concurrency model -/

theorem releaseBody_active_nonneg (s : ConcState) : 0 ≤ (releaseBody s).active := by
  unfold releaseBody
  cases s.queue <;> simp

theorem step_active_nonneg {s s' : ConcState} {e : Ev} (h0 : 0 ≤ s.active)
    (h : step s e = some s') : 0 ≤ s'.active := by
  cases e <;> simp only [step] at h
  case call i =>
    split at h
    · exact Option.some.inj h ▸ h0
    · exact absurd h (by simp)
  case enqueue i =>
    split at h
    · exact Option.some.inj h ▸ h0
    · exact absurd h (by simp)
  case pass i =>
    split at h
    · exact Option.some.inj h ▸ h0
    · exact absurd h (by simp)
  case finish i =>
    split at h
    · exact Option.some.inj h ▸ (by simpa using le_trans h0 (by omega))
    · exact absurd h (by simp)
  case release i =>
    split at h
    · exact Option.some.inj h ▸ releaseBody_active_nonneg _
    · exact absurd h (by simp)
  case releaseExtra =>
    exact Option.some.inj h ▸ releaseBody_active_nonneg _

theorem run_active_nonneg {s0 s : ConcState} {tr : List Ev} (h0 : 0 ≤ s0.active)
    (h : run s0 tr = some s) : 0 ≤ s.active := by
  induction tr generalizing s0 with
  | nil =>
    simp only [run, Option.some.injEq] at h
    exact h ▸ h0
  | cons e es ih =>
    simp only [run] at h
    cases hs : step s0 e with
    | none => rw [hs] at h; exact absurd h (by simp)
    | some s1 =>
      rw [hs] at h
      exact ih (step_active_nonneg h0 hs) h

/-! ## Claim theorems -/

/-- C10 (confirmed).  For every interleaving of `acquire()` steps and
`release()` calls — including `release()` calls with no matching
`acquire()` — the `activeCount` reported by `getStatus()` never goes below
zero: `release()` clamps with `Math.max(0, activeCount - 1)`. -/
theorem c10_activeCount_nonneg (k n : ℕ) (tr : List Ev) (s : ConcState)
    (h : run (ConcState.mk0 k n) tr = some s) :
    0 ≤ s.statusActiveCount :=
  run_active_nonneg (by simp [ConcState.mk0]) h

/-- The state reached by two unmatched `release()` calls on a fresh
limiter. -/
def sExtraRel : ConcState := { maxConcurrent := 1, active := 0, queue := [], phases := [] }

/-- Witness for C10: two `release()` calls with no prior `acquire()` leave
`activeCount` at `0 ≥ 0`. -/
theorem c10_activeCount_nonneg_witness :
    run (ConcState.mk0 1 0) [Ev.releaseExtra, Ev.releaseExtra] = some sExtraRel ∧
      0 ≤ sExtraRel.statusActiveCount :=
  ⟨by decide, c10_activeCount_nonneg 1 0 [Ev.releaseExtra, Ev.releaseExtra] sExtraRel (by decide)⟩

/-- The interleaving of three callers on a `maxConcurrent = 1` limiter in
which a waiter woken by `release()` is still inside its spacing sleep when
a fresh `acquire()` passes the concurrency check. -/
def c3Trace : List Ev :=
  [Ev.call 0, Ev.pass 0, Ev.finish 0, Ev.call 1, Ev.enqueue 1,
   Ev.release 0, Ev.call 2, Ev.pass 2, Ev.finish 1, Ev.finish 2]

/-- The state `c3Trace` reaches: two callers hold the limiter at once. -/
def c3FinalState : ConcState :=
  { maxConcurrent := 1, active := 2, queue := [],
    phases := [Phase.finished, Phase.holding, Phase.holding] }

/-- C3 (code bug).  With `maxConcurrent = 1` and every `release()`
matching a prior completed `acquire()`, the interleaving `c3Trace` — a
waiter dequeued by `release()` resumes its spacing sleep while a new
`acquire()` arrives, finds `activeCount < maxConcurrent`, and also
proceeds — drives `activeCount` to `2`, violating the documented
concurrency cap. -/
theorem c3_counterexample :
    run (ConcState.mk0 1 3) c3Trace = some c3FinalState ∧
      c3FinalState.maxConcurrent = 1 ∧ c3FinalState.statusActiveCount = 2 := by
  refine ⟨by decide, rfl, rfl⟩

/-- C5 (confirmed).  The delay armed by `schedulePoll` equals
`max(pollIntervalMs, 30000)` plus a jitter `j = r * 5000 ∈ [0, 5000)`
(for the uniform draw `r ∈ [0, 1)`), and `nextPollAt` is set to `now`
plus exactly that delay. -/
theorem c5_effective_poll_interval (cfg : MinionConfig) (st : MinionState) (now r : ℚ)
    (hrun : st.status = MinionStatus.running) (hr0 : 0 ≤ r) (hr1 : r < 1) :
    ∃ j : ℚ, 0 ≤ j ∧ j < 5000 ∧
      schedulePoll cfg st now r =
        some (max cfg.pollIntervalMs 30000 + j,
          { st with nextPollAt := now + (max cfg.pollIntervalMs 30000 + j) }) := by
  refine ⟨r * 5000, by positivity, by nlinarith, ?_⟩
  unfold schedulePoll updateState
  rw [if_pos hrun]
  simp [hrun, add_assoc]

/-- Witness for C5 at a concrete input (`pollIntervalMs = 60000`,
`now = 100000`, `r = 1/2`). -/
theorem c5_effective_poll_interval_witness :
    ∃ j : ℚ, 0 ≤ j ∧ j < 5000 ∧
      schedulePoll cfgEx stEx 100000 (1/2) =
        some (max cfgEx.pollIntervalMs 30000 + j,
          { stEx with nextPollAt := 100000 + (max cfgEx.pollIntervalMs 30000 + j) }) :=
  c5_effective_poll_interval cfgEx stEx 100000 (1/2) rfl (by norm_num) (by norm_num)

/-- A limiter saturated at the backoff cap: eight consecutive
`reportError()` calls on a fresh default-config limiter drive
`currentBackoff` to `maxBackoffMs = 300000`. -/
def rlSaturated : RL :=
  RL.reportError (RL.reportError (RL.reportError (RL.reportError
    (RL.reportError (RL.reportError (RL.reportError (RL.reportError rl0)))))))

/-- C6 counterexample.  On a limiter whose `currentBackoff` has
reached `maxBackoffMs` (reachable by eight consecutive generic errors),
`reportFloodWait(30)` leaves `currentBackoff` unchanged — the claimed
strict increase fails at the cap. -/
theorem c6_counterexample :
    rlSaturated.currentBackoff = DEFAULT_CONFIG.maxBackoffMs ∧
      ¬ rlSaturated.currentBackoff < (rlSaturated.reportFloodWait 1000000 30).currentBackoff := by
  have h : rlSaturated.currentBackoff = 300000 := by
    norm_num [rlSaturated, rl0, RL.init, RL.reportError, DEFAULT_CONFIG, min_def, max_def]
  refine ⟨by rw [h]; rfl, ?_⟩
  have h2 : (rlSaturated.reportFloodWait 1000000 30).currentBackoff = 300000 := by
    rw [RL.reportFloodWait]
    have hcfg : rlSaturated.config = DEFAULT_CONFIG := by rfl
    rw [hcfg, h]
    norm_num [DEFAULT_CONFIG, min_def]
  rw [h, h2]
  norm_num

/-- C6 amended.  `reportFloodWait(waitSeconds)` at time `now` makes an
`acquire()` entered at `now` block for at least
`(waitSeconds + safetyMargin) * 1000` ms (safety margin 5 s) before
proceeding, and — provided `currentBackoff` was strictly below
`maxBackoffMs` before the report — `currentBackoff` strictly increases. -/
theorem c6_flood_wait_effect (rl : RL) (now w r : ℚ)
    (hw : 0 ≤ w) (hmult : 1 ≤ rl.config.backoffMultiplier)
    (hb : 0 ≤ rl.currentBackoff)
    (hcap : rl.currentBackoff < rl.config.maxBackoffMs) :
    (w + 5) * 1000 ≤ (rl.reportFloodWait now w).acquireBlockTime now r ∧
      rl.currentBackoff < (rl.reportFloodWait now w).currentBackoff := by
  have hwait : (0 : ℚ) < (w + 5) * 1000 := by nlinarith
  constructor
  · unfold RL.reportFloodWait RL.acquireBlockTime
    simp only
    rw [if_pos (by linarith)]
    have hspacing : (0 : ℚ) ≤
        (if (now + ((w + 5) * 1000)) - ((now + (w + 5) * 1000) - rl.lastCallTime) <
            ({ rl with
                floodWaitUntil := now + (w + 5) * 1000,
                currentBackoff :=
                  min (rl.currentBackoff * rl.config.backoffMultiplier + (w + 5) * 1000)
                    rl.config.maxBackoffMs } : RL).getJitteredDelay r then 1 else 0) := by
      positivity
    split <;> linarith
  · unfold RL.reportFloodWait
    simp only
    rcases le_or_lt rl.config.maxBackoffMs
        (rl.currentBackoff * rl.config.backoffMultiplier + (w + 5) * 1000) with hge | hlt
    · rw [min_eq_right hge]; exact hcap
    · rw [min_eq_left (le_of_lt hlt)]
      nlinarith

/-- Witness for C6 amended at a fresh default-config limiter,
`waitSeconds = 30`, `now = 1000`, jitter draw `0`. -/
theorem c6_flood_wait_effect_witness :
    (30 + 5) * 1000 ≤ (rl0.reportFloodWait 1000 30).acquireBlockTime 1000 0 ∧
      rl0.currentBackoff < (rl0.reportFloodWait 1000 30).currentBackoff :=
  c6_flood_wait_effect rl0 1000 30 0 (by norm_num) (by norm_num [rl0, RL.init, DEFAULT_CONFIG])
    (by norm_num [rl0, RL.init]) (by norm_num [rl0, RL.init, DEFAULT_CONFIG])

/-- A running minion that has already failed 9 polls. -/
def stC1 : MinionState := { stEx with errorsCount := 9 }

/-- C1 counterexample.  On the 10th recorded failure the code calls
`pauseMinion`, so the status transitions to `'paused'`, not `'error'`. -/
theorem c1_counterexample :
    (executePoll stC1 rl0 (PollOutcome.err "boom") 5000).state.status = MinionStatus.paused ∧
      (executePoll stC1 rl0 (PollOutcome.err "boom") 5000).state.status ≠ MinionStatus.error := by
  refine ⟨by decide, by decide⟩

/-- C1 amended.  When a failed poll brings the *cumulative*
`errorsCount` to 10, the minion transitions to `'paused'` and no further
poll is scheduled; below 10 the failure leaves it `'running'` with the
next poll armed; a successful poll *preserves* (does not reset)
`errorsCount`. -/
theorem c1_failure_threshold (st : MinionState) (rl : RL) (msg : String)
    (u : PartialMinionState) (now : ℚ) (hrun : st.status = MinionStatus.running) :
    (10 ≤ st.errorsCount + 1 →
      (executePoll st rl (PollOutcome.err msg) now).state.status = MinionStatus.paused ∧
      (executePoll st rl (PollOutcome.err msg) now).scheduledNext = false) ∧
    (st.errorsCount + 1 < 10 →
      (executePoll st rl (PollOutcome.err msg) now).state.status = MinionStatus.running ∧
      (executePoll st rl (PollOutcome.err msg) now).scheduledNext = true ∧
      (executePoll st rl (PollOutcome.err msg) now).state.errorsCount = st.errorsCount + 1) ∧
    (executePoll st rl (PollOutcome.ok u) now).state.errorsCount = st.errorsCount := by
  refine ⟨?_, ?_, ?_⟩
  · intro h10
    simp only [executePoll, hrun, ne_eq, not_true_eq_false, if_false, updateState,
      Option.getD_some, Option.getD_none]
    rw [if_pos h10]
    exact ⟨rfl, rfl⟩
  · intro hlt
    simp only [executePoll, hrun, ne_eq, not_true_eq_false, if_false, updateState,
      Option.getD_some, Option.getD_none]
    rw [if_neg (by omega)]
    refine ⟨rfl, by simp, rfl⟩
  · simp only [executePoll, hrun, ne_eq, not_true_eq_false, if_false, updateState,
      Option.getD_some, Option.getD_none]

/-- Witness for C1 amended at the 9-failures state. -/
theorem c1_failure_threshold_witness :
    (10 ≤ stC1.errorsCount + 1 →
      (executePoll stC1 rl0 (PollOutcome.err "boom") 5000).state.status = MinionStatus.paused ∧
      (executePoll stC1 rl0 (PollOutcome.err "boom") 5000).scheduledNext = false) ∧
    (stC1.errorsCount + 1 < 10 →
      (executePoll stC1 rl0 (PollOutcome.err "boom") 5000).state.status = MinionStatus.running ∧
      (executePoll stC1 rl0 (PollOutcome.err "boom") 5000).scheduledNext = true ∧
      (executePoll stC1 rl0 (PollOutcome.err "boom") 5000).state.errorsCount = stC1.errorsCount + 1) ∧
    (executePoll stC1 rl0 (PollOutcome.ok {}) 5000).state.errorsCount = stC1.errorsCount :=
  c1_failure_threshold stC1 rl0 "boom" {} 5000 rfl

/-- C2 counterexample.  A flood-wait rejection (error object carrying
`seconds`) *does* increment the minion's error counter: the limiter
reconfigures, but `execute` rethrows and `executePoll` counts it like any
other failure. -/
theorem c2_counterexample :
    (executePoll stEx rl0 (PollOutcome.flood 30 "FLOOD_WAIT_30") 5000).state.errorsCount
        = stEx.errorsCount + 1 ∧
      (executePoll stEx rl0 (PollOutcome.flood 30 "FLOOD_WAIT_30") 5000).rl.floodWaitUntil
        = 5000 + (30 + 5) * 1000 := by
  constructor
  · decide
  · show (RL.reportFloodWait rl0 5000 30).floodWaitUntil = 5000 + (30 + 5) * 1000
    norm_num [RL.reportFloodWait]

/-- C2 amended.  A flood-wait rejection reconfigures the shared
limiter (`floodWaitUntil = now + (seconds + 5) * 1000`, backoff escalated
by the multiplier rule) *and* is counted toward the minion's failure
threshold exactly like an ordinary error (`errorsCount + 1`, `lastError`
recorded); while under the threshold the poll is still re-armed on its
normal schedule. -/
theorem c2_flood_wait_handling (st : MinionState) (rl : RL) (w : ℚ) (msg : String) (now : ℚ)
    (hrun : st.status = MinionStatus.running) :
    (executePoll st rl (PollOutcome.flood w msg) now).rl.floodWaitUntil
        = now + (w + 5) * 1000 ∧
    (executePoll st rl (PollOutcome.flood w msg) now).rl.currentBackoff
        = min (rl.currentBackoff * rl.config.backoffMultiplier + (w + 5) * 1000)
            rl.config.maxBackoffMs ∧
    (executePoll st rl (PollOutcome.flood w msg) now).state.errorsCount = st.errorsCount + 1 ∧
    (executePoll st rl (PollOutcome.flood w msg) now).state.lastError = some msg ∧
    (st.errorsCount + 1 < 10 →
      (executePoll st rl (PollOutcome.flood w msg) now).scheduledNext = true) := by
  simp only [executePoll, hrun, ne_eq, not_true_eq_false, if_false, updateState,
    Option.getD_some, Option.getD_none]
  by_cases h10 : 10 ≤ st.errorsCount + 1
  · rw [if_pos h10]
    refine ⟨by simp [RL.reportFloodWait], by simp [RL.reportFloodWait], rfl, rfl, ?_⟩
    intro hlt; omega
  · rw [if_neg h10]
    refine ⟨by simp [RL.reportFloodWait], by simp [RL.reportFloodWait], rfl, rfl, ?_⟩
    intro hlt; simp

/-- Witness for C2 amended at a fresh running minion and limiter. -/
theorem c2_flood_wait_handling_witness :
    (executePoll stEx rl0 (PollOutcome.flood 30 "FLOOD_WAIT_30") 5000).rl.floodWaitUntil
        = 5000 + (30 + 5) * 1000 ∧
    (executePoll stEx rl0 (PollOutcome.flood 30 "FLOOD_WAIT_30") 5000).rl.currentBackoff
        = min (rl0.currentBackoff * rl0.config.backoffMultiplier + (30 + 5) * 1000)
            rl0.config.maxBackoffMs ∧
    (executePoll stEx rl0 (PollOutcome.flood 30 "FLOOD_WAIT_30") 5000).state.errorsCount
        = stEx.errorsCount + 1 ∧
    (executePoll stEx rl0 (PollOutcome.flood 30 "FLOOD_WAIT_30") 5000).state.lastError
        = some "FLOOD_WAIT_30" ∧
    (stEx.errorsCount + 1 < 10 →
      (executePoll stEx rl0 (PollOutcome.flood 30 "FLOOD_WAIT_30") 5000).scheduledNext = true) :=
  c2_flood_wait_handling stEx rl0 30 "FLOOD_WAIT_30" 5000 rfl

/-- A running minion with 5 recorded errors. -/
def stC7 : MinionState := { stEx with errorsCount := 5 }

/-- A strategy result that explicitly tries to override the error counter. -/
def updC7 : PartialMinionState := { errorsCount := some 0, messagesScanned := some 42 }

/-- C7 (code bug).  The success path spreads the strategy's partial
update *first* and then re-asserts `errorsCount: state.errorsCount`, so an
explicit `errorsCount` override in the returned partial state is always
discarded — contradicting the code's own `Preserve unless overridden`
comment: with pre-poll `errorsCount = 5` and an update carrying
`errorsCount = 0`, the stored counter is `5`, while other updated fields
(`messagesScanned`) and `lastPollAt` are applied. -/
theorem c7_override_discarded :
    updC7.errorsCount = some 0 ∧
      (executePoll stC7 rl0 (PollOutcome.ok updC7) 5000).state.errorsCount = 5 ∧
      (executePoll stC7 rl0 (PollOutcome.ok updC7) 5000).state.messagesScanned = 42 ∧
      (executePoll stC7 rl0 (PollOutcome.ok updC7) 5000).state.lastPollAt = 5000 := by
  refine ⟨rfl, by decide, by decide, by decide⟩

/-! ### Key lemmas about the alerts object store -/

theorem saveAlert_key_eq (a : Alert) (l : List Alert) :
    ∀ b ∈ saveAlert a l, b.id = a.id → b = a := by
  intro b hb hid
  unfold saveAlert at hb
  split at hb
  · rcases List.mem_map.mp hb with ⟨c, _, hc⟩
    by_cases h : c.id = a.id
    · simpa [h] using hc.symm
    · rw [if_neg (by simpa using h)] at hc
      exact absurd (hc ▸ hid) h
  · rcases List.mem_append.mp hb with hbl | hba
    · next hany =>
      exfalso
      exact hany (List.any_eq_true.mpr ⟨b, hbl, by simpa using hid⟩)
    · simpa using hba

theorem any_saveAlert (a : Alert) (l : List Alert) :
    (saveAlert a l).any (fun b => b.id = a.id) = true := by
  unfold saveAlert
  split
  · next hany =>
    rcases List.any_eq_true.mp hany with ⟨b, hb, hid⟩
    exact List.any_eq_true.mpr ⟨a, List.mem_map.mpr ⟨b, hb, by simp [of_decide_eq_true hid]⟩, by simp⟩
  · exact List.any_eq_true.mpr ⟨a, by simp, by simp⟩

theorem saveAlert_of_key_eq (a : Alert) (l : List Alert)
    (hany : l.any (fun b => b.id = a.id) = true)
    (hall : ∀ b ∈ l, b.id = a.id → b = a) : saveAlert a l = l := by
  unfold saveAlert
  rw [if_pos hany]
  calc l.map (fun b => if b.id = a.id then a else b)
      = l.map (fun b => b) := by
        apply List.map_congr_left
        intro b hb
        by_cases h : b.id = a.id
        · rw [if_pos h, hall b hb h]
        · rw [if_neg h]
    _ = l := List.map_id' l

theorem saveAlert_saveAlert (a : Alert) (l : List Alert) :
    saveAlert a (saveAlert a l) = saveAlert a l :=
  saveAlert_of_key_eq a (saveAlert a l) (any_saveAlert a l) (saveAlert_key_eq a l)

theorem getAlert_saveAlert (a : Alert) (l : List Alert) :
    getAlert a.id (saveAlert a l) = some a := by
  unfold getAlert
  cases hfind : (saveAlert a l).find? (fun b => b.id = a.id) with
  | none =>
    exfalso
    rcases List.any_eq_true.mp (any_saveAlert a l) with ⟨b, hb, hid⟩
    exact absurd hid (by simpa using List.find?_eq_none.mp hfind b hb)
  | some b =>
    have hb := List.find?_some hfind
    have hbmem := List.mem_of_find?_eq_some hfind
    rw [saveAlert_key_eq a l b hbmem (of_decide_eq_true hb)]

theorem getAlert_saveAlert_of_key (a : Alert) (l : List Alert) (id : String)
    (h : a.id = id) : getAlert id (saveAlert a l) = some a :=
  h ▸ getAlert_saveAlert a l

theorem markAlertRead_idem (id : String) (l : List Alert) :
    markAlertRead id (markAlertRead id l) = markAlertRead id l := by
  unfold markAlertRead
  cases hfind : getAlert id l with
  | none => simp only [hfind]
  | some a =>
    simp only [hfind]
    have hid : a.id = id := by
      have := List.find?_some hfind
      exact of_decide_eq_true this
    simp only [getAlert_saveAlert_of_key { a with read := true } l id hid]
    exact saveAlert_saveAlert { a with read := true } l

theorem markAlertDismissed_idem (id : String) (l : List Alert) :
    markAlertDismissed id (markAlertDismissed id l) = markAlertDismissed id l := by
  unfold markAlertDismissed
  cases hfind : getAlert id l with
  | none => simp only [hfind]
  | some a =>
    simp only [hfind]
    have hid : a.id = id := by
      have := List.find?_some hfind
      exact of_decide_eq_true this
    simp only [getAlert_saveAlert_of_key { a with dismissed := true } l id hid]
    exact saveAlert_saveAlert { a with dismissed := true } l

theorem markAllAlertsRead_idem (l : List Alert) :
    markAllAlertsRead (markAllAlertsRead l) = markAllAlertsRead l := by
  unfold markAllAlertsRead
  rw [List.map_map]
  apply List.map_congr_left
  intro a _
  by_cases h : a.read <;> simp [h]

/-- An alert service holding two unread alerts with the matching count. -/
def svcEx : AlertServiceState :=
  { alerts :=
      [{ id := "A", minionId := "m1", timestamp := 1, read := false, dismissed := false },
       { id := "B", minionId := "m1", timestamp := 2, read := false, dismissed := false }],
    unreadCount := 2 }

/-- C8 counterexample.  `markRead` decrements the in-memory unread
count unconditionally, so applying it a second time to the *same* alert
changes observable state: with two unread alerts, marking alert `A` read
twice leaves `unreadCount = 0` although alert `B` is still unread
(`1` after the first call, `0` after the second). -/
theorem c8_counterexample :
    (AlertService.markRead (AlertService.markRead svcEx "A").1 "A").1
        ≠ (AlertService.markRead svcEx "A").1 ∧
      (AlertService.markRead svcEx "A").1.unreadCount = 1 ∧
      (AlertService.markRead (AlertService.markRead svcEx "A").1 "A").1.unreadCount = 0 := by
  refine ⟨?_, by decide, by decide⟩
  intro h
  have := congrArg AlertServiceState.unreadCount h
  revert this
  decide

/-- C8 amended.  `markDismissed` and `markAllRead` are idempotent on
the whole observable state; `markRead` is idempotent on the *persisted*
alert flags but unconditionally decrements the in-memory unread count
(clamped at 0) on every call, so a second `markRead` of the same alert can
change the unread count; and every count mutation (`markRead`,
`markAllRead`) notifies listeners with the new absolute count, not a
delta (`markDismissed` does not touch or notify the count). -/
theorem c8_idempotence (s : AlertServiceState) (alertId : String) :
    (AlertService.markAllRead (AlertService.markAllRead s).1).1
        = (AlertService.markAllRead s).1 ∧
    (AlertService.markDismissed (AlertService.markDismissed s alertId).1 alertId).1
        = (AlertService.markDismissed s alertId).1 ∧
    (AlertService.markRead (AlertService.markRead s alertId).1 alertId).1.alerts
        = (AlertService.markRead s alertId).1.alerts ∧
    (AlertService.markRead (AlertService.markRead s alertId).1 alertId).1.unreadCount
        = (AlertService.markRead s alertId).1.unreadCount - 1 ∧
    (AlertService.markRead s alertId).2 = [(AlertService.markRead s alertId).1.unreadCount] ∧
    (AlertService.markAllRead s).2 = [(AlertService.markAllRead s).1.unreadCount] ∧
    (AlertService.markDismissed s alertId).1.unreadCount = s.unreadCount ∧
    (AlertService.markDismissed s alertId).2 = [] := by
  refine ⟨?_, ?_, ?_, rfl, rfl, rfl, rfl, rfl⟩
  · unfold AlertService.markAllRead
    simp only [markAllAlertsRead_idem]
  · unfold AlertService.markDismissed
    simp only [markAlertDismissed_idem]
  · unfold AlertService.markRead
    simp only [markAlertRead_idem]

/-- A fetch world in which chat `c` already contains one matching message. -/
def fetchEx : String → Option ℕ → List BridgeMessage :=
  fun _ _ => [{ id := 1, text := "this is bad" }]

/-- C4 counterexample.  With an empty cursor the first poll keeps
*all* fetched messages (`newMessages = messages` when `lastSeenId = 0`)
and runs the match loop over them: for one pre-existing message matching
keyword `bad`, the first poll emits an alert while establishing the
cursor — there is no first-run suppression. -/
theorem c4_counterexample :
    stEx.lastMessageIds.lookup "c" = none ∧
      (pollKeywordMonitor cfgEx ["bad"] stEx fetchEx).2
        = [{ chatId := "c", messageId := 1, matchedKeywords := ["bad"] }] ∧
      (pollKeywordMonitor cfgEx ["bad"] stEx fetchEx).1.lastMessageIds = some [("c", 1)] := by
  refine ⟨rfl, by decide, by decide⟩

/-- C4 amended.  For a single-target keyword-only minion: when the
cursor for the chat is empty, the first poll establishes the cursor from
the fetched messages *and* emits an alert for every pre-existing fetched
message with non-empty text and a keyword match (no first-run
suppression); when a positive cursor exists, every emitted alert refers to
a message with id strictly above the cursor. -/
theorem c4_first_poll_alerts (cfg : MinionConfig) (keywords : List String)
    (st : MinionState) (fetch : String → Option ℕ → List BridgeMessage) (chat : String)
    (htargets : cfg.targetChatIds = [chat]) :
    (st.lastMessageIds.lookup chat = none →
      (pollKeywordMonitor cfg keywords st fetch).2
          = ((fetch chat none).filter
              (fun m => (m.text != "") && (matchesKeywords m.text keywords != []))).map
              (fun m => KMAlert.mk chat m.id (matchesKeywords m.text keywords)) ∧
      (fetch chat none ≠ [] →
        (pollKeywordMonitor cfg keywords st fetch).1.lastMessageIds
            = some (setCursor st.lastMessageIds chat
                (((fetch chat none).map (fun m => m.id)).foldl max 0)))) ∧
    (∀ c : ℕ, 0 < c → st.lastMessageIds.lookup chat = some c →
      ∀ a ∈ (pollKeywordMonitor cfg keywords st fetch).2, c < a.messageId) := by
  constructor
  · intro hcur
    unfold pollKeywordMonitor
    rw [htargets]
    simp only [List.foldl_cons, List.foldl_nil]
    unfold kmProcessChat
    rw [hcur]
    simp only [Option.getD_none, gt_iff_lt, lt_self_iff_false, if_false]
    by_cases hmsgs : fetch chat none = []
    · rw [if_pos hmsgs]
      refine ⟨by simp [hmsgs], fun hne => absurd hmsgs hne⟩
    · rw [if_neg hmsgs, if_neg hmsgs]
      exact ⟨by simp, fun _ => rfl⟩
  · intro c hc hcur a ha
    unfold pollKeywordMonitor at ha
    rw [htargets] at ha
    simp only [List.foldl_cons, List.foldl_nil] at ha
    unfold kmProcessChat at ha
    rw [hcur] at ha
    simp only [Option.getD_some, gt_iff_lt, hc, if_true] at ha
    split at ha
    · simp at ha
    · split at ha
      · simp at ha
      · simp only [List.nil_append, List.mem_map] at ha
        rcases ha with ⟨m, hm, hma⟩
        have hm1 := (List.mem_filter.mp hm).1
        rcases List.mem_filter.mp hm1 with ⟨_, hlt⟩
        have hcm : c < m.id := of_decide_eq_true hlt
        rw [← hma]
        exact hcm

/-- Witness for C4 amended at the concrete first-run input. -/
theorem c4_first_poll_alerts_witness :
    (stEx.lastMessageIds.lookup "c" = none →
      (pollKeywordMonitor cfgEx ["bad"] stEx fetchEx).2
          = ((fetchEx "c" none).filter
              (fun m => (m.text != "") && (matchesKeywords m.text ["bad"] != []))).map
              (fun m => KMAlert.mk "c" m.id (matchesKeywords m.text ["bad"])) ∧
      (fetchEx "c" none ≠ [] →
        (pollKeywordMonitor cfgEx ["bad"] stEx fetchEx).1.lastMessageIds
            = some (setCursor stEx.lastMessageIds "c"
                (((fetchEx "c" none).map (fun m => m.id)).foldl max 0)))) ∧
    (∀ c : ℕ, 0 < c → stEx.lastMessageIds.lookup "c" = some c →
      ∀ a ∈ (pollKeywordMonitor cfgEx ["bad"] stEx fetchEx).2, c < a.messageId) :=
  c4_first_poll_alerts cfgEx ["bad"] stEx fetchEx "c" rfl

/-! ### Lemmas about the log sort and the deletion cascade -/

theorem length_insertTsDesc (l : List LogEntry) (x : LogEntry) :
    (insertTsDesc l x).length = l.length + 1 := by
  induction l with
  | nil => rfl
  | cons y ys ih =>
    unfold insertTsDesc
    split
    · simp
    · simp [ih]

theorem mem_insertTsDesc (y : LogEntry) (l : List LogEntry) (x : LogEntry) :
    y ∈ insertTsDesc l x ↔ y ∈ l ∨ y = x := by
  induction l with
  | nil => simp [insertTsDesc]
  | cons z zs ih =>
    unfold insertTsDesc
    split
    · simp only [List.mem_cons]
      tauto
    · simp only [List.mem_cons, ih]
      tauto

theorem length_foldl_insertTsDesc (l acc : List LogEntry) :
    (l.foldl insertTsDesc acc).length = acc.length + l.length := by
  induction l generalizing acc with
  | nil => simp
  | cons x xs ih =>
    rw [List.foldl_cons, ih, length_insertTsDesc]
    simp only [List.length_cons]
    omega

theorem mem_foldl_insertTsDesc (y : LogEntry) (l acc : List LogEntry) :
    y ∈ l.foldl insertTsDesc acc ↔ y ∈ acc ∨ y ∈ l := by
  induction l generalizing acc with
  | nil => simp
  | cons x xs ih =>
    rw [List.foldl_cons, ih]
    simp only [mem_insertTsDesc, List.mem_cons]
    tauto

theorem length_sortTsDesc (l : List LogEntry) : (sortTsDesc l).length = l.length := by
  unfold sortTsDesc
  simpa using length_foldl_insertTsDesc l []

theorem mem_sortTsDesc (y : LogEntry) (l : List LogEntry) : y ∈ sortTsDesc l ↔ y ∈ l := by
  unfold sortTsDesc
  simpa using mem_foldl_insertTsDesc y l []

theorem find?_key_filter_ne {α : Type} (l : List α) (key : α → String) (mid : String) :
    (l.filter (fun x => key x ≠ mid)).find? (fun x => key x = mid) = none := by
  apply List.find?_eq_none.mpr
  intro x hx
  have h := (List.mem_filter.mp hx).2
  simp only [decide_not] at h
  simpa using h

theorem getAlertsByMinion_clear (s : MinionStorage) (mid : String) :
    getAlertsByMinion mid (clearAlertsByMinion mid s) = [] := by
  unfold getAlertsByMinion clearAlertsByMinion
  simp only
  rw [List.filter_eq_nil_iff]
  intro a ha
  rcases List.mem_filter.mp ha with ⟨hmem, hnot⟩
  simp only [decide_not, Bool.not_eq_eq_eq_not, Bool.not_true, decide_eq_false_iff_not] at hnot
  intro hmid
  apply hnot
  apply List.mem_map.mpr
  refine ⟨a, ?_, rfl⟩
  unfold getAlertsByMinion
  exact List.mem_filter.mpr ⟨hmem, hmid⟩

theorem clearLogsByMinion_complete (s : MinionStorage) (mid : String)
    (h : (s.logs.filter (fun log => log.minionId = mid)).length ≤ 10000) :
    (clearLogsByMinion mid s).logs.filter (fun log => log.minionId = mid) = [] := by
  unfold clearLogsByMinion
  simp only
  rw [List.filter_eq_nil_iff]
  intro x hx
  rcases List.mem_filter.mp hx with ⟨hmem, hnot⟩
  simp only [decide_not, Bool.not_eq_eq_eq_not, Bool.not_true, decide_eq_false_iff_not] at hnot
  intro hmid
  apply hnot
  apply List.mem_map.mpr
  refine ⟨x, ?_, rfl⟩
  unfold getLogsByMinion
  rw [List.take_of_length_le (by rw [length_sortTsDesc]; exact h)]
  exact (mem_sortTsDesc x _).mpr (List.mem_filter.mpr ⟨hmem, hmid⟩)

theorem stopMinion_storage_frame (e : Engine) (mid : String) (logId : ℕ) (now : ℚ) :
    (Engine.stopMinion e mid logId now).storage.configs = e.storage.configs ∧
      (Engine.stopMinion e mid logId now).storage.alerts = e.storage.alerts ∧
      (Engine.stopMinion e mid logId now).storage.logs
        = saveLog (LogEntry.mk logId mid now) e.storage.logs ∧
      (Engine.stopMinion e mid logId now).configs = e.configs := by
  unfold Engine.stopMinion Engine.logWrite Engine.persistState Engine.setMinionState
  split <;> exact ⟨rfl, rfl, rfl, rfl⟩

theorem saveLog_fresh (entry : LogEntry) (logs : List LogEntry)
    (hfresh : ∀ l ∈ logs, l.id ≠ entry.id) :
    saveLog entry logs = logs ++ [entry] := by
  unfold saveLog
  have hnot : ¬ (logs.any (fun l => l.id = entry.id) = true) := by
    intro hany
    rcases List.any_eq_true.mp hany with ⟨l, hl, hid⟩
    exact hfresh l hl (of_decide_eq_true hid)
  rw [if_neg hnot]

theorem getConfig_deleteAll (s : MinionStorage) (mid : String) :
    getConfig mid (deleteAllMinionData mid s) = none := by
  show (s.configs.filter (fun c => c.id ≠ mid)).find? (fun c => c.id = mid) = none
  exact find?_key_filter_ne _ (fun c : MinionConfig => c.id) mid

theorem getStateRec_deleteAll (s : MinionStorage) (mid : String) :
    getStateRec mid (deleteAllMinionData mid s) = none := by
  show (s.states.filter (fun st => st.id ≠ mid)).find? (fun st => st.id = mid) = none
  exact find?_key_filter_ne _ (fun st : MinionState => st.id) mid

theorem getAlertsByMinion_deleteAll (s : MinionStorage) (mid : String) :
    getAlertsByMinion mid (deleteAllMinionData mid s) = [] := by
  show getAlertsByMinion mid
      (clearAlertsByMinion mid (deleteStateRec mid (deleteConfig mid s))) = []
  exact getAlertsByMinion_clear _ mid

theorem logs_deleteAll (s : MinionStorage) (mid : String)
    (h : (s.logs.filter (fun log => log.minionId = mid)).length ≤ 10000) :
    (deleteAllMinionData mid s).logs.filter (fun log => log.minionId = mid) = [] := by
  show (clearLogsByMinion mid
      (clearAlertsByMinion mid (deleteStateRec mid (deleteConfig mid s)))).logs.filter
      (fun log => log.minionId = mid) = []
  exact clearLogsByMinion_complete _ mid h

/-- C9 amended.  `deleteMinion` removes the minion's config, state, all
its alerts, and its logs up to the `getLogsByMinion` fetch cap of 10000
entries.  The implicit stop first writes one more `'Minion stopped'` log
entry for the minion (its generated id fresh, per `generateLogId`), so
whenever the minion holds at most 9999 log entries before deletion — the
stop entry then keeps the total within the cap — every record-family
lookup for that id afterwards returns not-found or an empty collection
(in-memory maps included); with 10000 or more pre-existing entries at
least one log entry for the id survives the cascade (see the
counterexample). -/
theorem c9_delete_cascade (e : Engine) (mid : String) (logId : ℕ) (now : ℚ)
    (hfresh : ∀ log ∈ e.storage.logs, log.id ≠ logId)
    (hlogs : (e.storage.logs.filter (fun log => log.minionId = mid)).length + 1 ≤ 10000) :
    (Engine.deleteMinion e mid logId now).configs.find? (fun c => c.id = mid) = none ∧
    (Engine.deleteMinion e mid logId now).states.find? (fun st => st.id = mid) = none ∧
    getConfig mid (Engine.deleteMinion e mid logId now).storage = none ∧
    getStateRec mid (Engine.deleteMinion e mid logId now).storage = none ∧
    getAlertsByMinion mid (Engine.deleteMinion e mid logId now).storage = [] ∧
    (Engine.deleteMinion e mid logId now).storage.logs.filter
      (fun log => log.minionId = mid) = [] ∧
    getLogsByMinion mid 100 (Engine.deleteMinion e mid logId now).storage.logs = [] := by
  rcases stopMinion_storage_frame e mid logId now with ⟨_, _, hl, _⟩
  have hsaved : (Engine.stopMinion e mid logId now).storage.logs
      = e.storage.logs ++ [LogEntry.mk logId mid now] := by
    rw [hl]
    exact saveLog_fresh (LogEntry.mk logId mid now) e.storage.logs hfresh
  have hlogs1 : ((Engine.stopMinion e mid logId now).storage.logs.filter
      (fun log => log.minionId = mid)).length ≤ 10000 := by
    rw [hsaved, List.filter_append, List.length_append]
    have hone : (([LogEntry.mk logId mid now] : List LogEntry).filter
        (fun log => log.minionId = mid)).length ≤ 1 := by simp
    omega
  have h6 : (Engine.deleteMinion e mid logId now).storage.logs.filter
      (fun log => log.minionId = mid) = [] :=
    logs_deleteAll (Engine.stopMinion e mid logId now).storage mid hlogs1
  refine ⟨find?_key_filter_ne _ (fun c : MinionConfig => c.id) mid,
    find?_key_filter_ne _ (fun st : MinionState => st.id) mid,
    getConfig_deleteAll _ mid, getStateRec_deleteAll _ mid, getAlertsByMinion_deleteAll _ mid,
    h6, ?_⟩
  unfold getLogsByMinion
  rw [h6]
  rfl

/-- A concrete alert for the cascade witness. -/
def alertEx : Alert :=
  { id := "A", minionId := "m1", timestamp := 3, read := false, dismissed := false }

/-- A concrete log entry for the cascade witness. -/
def logEx : LogEntry := { id := 0, minionId := "m1", timestamp := 5 }

/-- A concrete engine with one minion, one alert and one log. -/
def engEx : Engine :=
  { configs := [cfgEx], states := [stEx],
    storage := { configs := [cfgEx], states := [stEx], alerts := [alertEx], logs := [logEx] } }

/-- Witness for C9 amended at a one-minion engine, with stop-log id `1`
(fresh over the stored log ids) written at time `7`. -/
theorem c9_delete_cascade_witness :
    (∀ log ∈ engEx.storage.logs, log.id ≠ 1) ∧
    (engEx.storage.logs.filter (fun log => log.minionId = "m1")).length + 1 ≤ 10000 ∧
    ((Engine.deleteMinion engEx "m1" 1 7).configs.find? (fun c => c.id = "m1") = none ∧
     (Engine.deleteMinion engEx "m1" 1 7).states.find? (fun st => st.id = "m1") = none ∧
     getConfig "m1" (Engine.deleteMinion engEx "m1" 1 7).storage = none ∧
     getStateRec "m1" (Engine.deleteMinion engEx "m1" 1 7).storage = none ∧
     getAlertsByMinion "m1" (Engine.deleteMinion engEx "m1" 1 7).storage = [] ∧
     (Engine.deleteMinion engEx "m1" 1 7).storage.logs.filter
       (fun log => log.minionId = "m1") = [] ∧
     getLogsByMinion "m1" 100 (Engine.deleteMinion engEx "m1" 1 7).storage.logs = []) :=
  ⟨by decide, by decide, c9_delete_cascade engEx "m1" 1 7 (by decide) (by decide)⟩

/-! ### The log-cascade truncation at 10000 entries -/

theorem length_filter_memIds_le (l : List LogEntry) (ids : List ℕ)
    (hnd : (l.map (fun x => x.id)).Nodup) :
    (l.filter (fun x => x.id ∈ ids)).length ≤ ids.length := by
  classical
  have hsub : List.Sublist (l.filter (fun x => x.id ∈ ids)) l := List.filter_sublist l
  have h1 : ((l.filter (fun x => x.id ∈ ids)).map (fun x => x.id)).Nodup :=
    List.Nodup.sublist (hsub.map (fun x => x.id)) hnd
  have h2 : ∀ y ∈ (l.filter (fun x => x.id ∈ ids)).map (fun x => x.id), y ∈ ids := by
    intro y hy
    rcases List.mem_map.mp hy with ⟨x, hx, rfl⟩
    exact of_decide_eq_true (List.mem_filter.mp hx).2
  calc (l.filter (fun x => x.id ∈ ids)).length
      = ((l.filter (fun x => x.id ∈ ids)).map (fun x => x.id)).length := by
        rw [List.length_map]
    _ = ((l.filter (fun x => x.id ∈ ids)).map (fun x => x.id)).toFinset.card := by
        rw [List.toFinset_card_of_nodup h1]
    _ ≤ ids.toFinset.card :=
        Finset.card_le_card (fun y hy => List.mem_toFinset.mpr (h2 y (List.mem_toFinset.mp hy)))
    _ ≤ ids.length := List.toFinset_card_le ids

theorem length_filter_notMemIds_ge (l : List LogEntry) (ids : List ℕ)
    (hnd : (l.map (fun x => x.id)).Nodup) :
    l.length - ids.length ≤ (l.filter (fun x => ¬ x.id ∈ ids)).length := by
  have hperm := (List.filter_append_perm (fun x => x.id ∈ ids) l).length_eq
  rw [List.length_append] at hperm
  have hle := length_filter_memIds_le l ids hnd
  have hnotsame : (l.filter (fun x => ¬ x.id ∈ ids)) = (l.filter (fun x => !decide (x.id ∈ ids))) := by
    simp only [decide_not]
  rw [hnotsame]
  omega

/-- Source `n` log entries for minion `m` with distinct opaque ids and equal
timestamps. -/
def mkLogs (n : ℕ) : List LogEntry :=
  (List.range n).map (fun i => { id := i, minionId := "m", timestamp := 0 })

/-- An engine whose storage holds exactly 10000 log entries for minion
`m` (the spec's stated cascade boundary). -/
def engC9 : Engine :=
  { configs := [], states := [],
    storage := { configs := [], states := [], alerts := [], logs := mkLogs 10000 } }

/-- The ids fetched by `getLogsByMinion("m", 10000)` on the post-stop
store of 10001 entries. -/
def idsC9 : List ℕ := (getLogsByMinion "m" 10000 (mkLogs 10001)).map (fun log => log.id)

theorem deleteMinion_logs_eq (L : List LogEntry) (logId : ℕ) (now : ℚ) :
    (Engine.deleteMinion
        { configs := [], states := [],
          storage := { configs := [], states := [], alerts := [], logs := L } }
        "m" logId now).storage.logs
      = (saveLog (LogEntry.mk logId "m" now) L).filter
          (fun log => ¬ log.id ∈ ((getLogsByMinion "m" 10000
              (saveLog (LogEntry.mk logId "m" now) L)).map (fun log => log.id))) := rfl

/-- C9 counterexample.  `clearLogsByMinion` deletes only the records
returned by `getLogsByMinion(minionId, 10000)`, and the implicit stop
inside `deleteMinion` first writes one more log entry: on a store with
exactly 10000 log entries for minion `m` — within the claim's own bound —
the cascade sees 10001 entries, deletes the fetched 10000, and at least
one log entry for `m` remains, so the logs-by-minion lookup is not
empty. -/
theorem c9_counterexample :
    (Engine.deleteMinion engC9 "m" 10000 0).storage.logs.filter
        (fun log => log.minionId = "m") ≠ [] := by
  have hfresh : ∀ l ∈ mkLogs 10000, l.id ≠ 10000 := by
    intro l hl
    unfold mkLogs at hl
    rcases List.mem_map.mp hl with ⟨i, hi, rfl⟩
    have hilt : i < 10000 := List.mem_range.mp hi
    show i ≠ 10000
    omega
  have hsucc : mkLogs (10000 + 1) = mkLogs 10000 ++ [LogEntry.mk 10000 "m" 0] := by
    unfold mkLogs
    rw [List.range_succ, List.map_append]
    rfl
  have hsave : saveLog (LogEntry.mk 10000 "m" 0) (mkLogs 10000) = mkLogs 10001 := by
    rw [saveLog_fresh (LogEntry.mk 10000 "m" 0) (mkLogs 10000) hfresh]
    exact hsucc.symm
  have hstep : (Engine.deleteMinion engC9 "m" 10000 0).storage.logs
      = (mkLogs 10001).filter (fun log => ¬ log.id ∈ idsC9) := by
    unfold engC9 idsC9
    rw [deleteMinion_logs_eq (mkLogs 10000) 10000 0, hsave]
  have hmapid : (mkLogs 10001).map (fun x => x.id) = List.range 10001 := by
    unfold mkLogs
    rw [List.map_map]
    exact List.map_id' _
  have hnd : ((mkLogs 10001).map (fun x => x.id)).Nodup := by
    rw [hmapid]; exact List.nodup_range 10001
  have hidslen : idsC9.length ≤ 10000 := by
    unfold idsC9 getLogsByMinion
    rw [List.length_map]
    exact List.length_take_le _ _
  have hLlen : (mkLogs 10001).length = 10001 := by
    unfold mkLogs
    rw [List.length_map, List.length_range]
  have hge := length_filter_notMemIds_ge (mkLogs 10001) idsC9 hnd
  rw [hstep]
  have hall : ∀ x ∈ (mkLogs 10001).filter (fun log => ¬ log.id ∈ idsC9),
      decide (x.minionId = "m") = true := by
    intro x hx
    have hxL : x ∈ mkLogs 10001 := List.mem_of_mem_filter hx
    unfold mkLogs at hxL
    rcases List.mem_map.mp hxL with ⟨i, _, rfl⟩
    simp
  rw [List.filter_eq_self.mpr hall]
  apply List.length_pos.mp
  omega

end Argus
